import Mathlib

/-!
Shallow embedding of the order pipeline of src/app.py: the paginated
fetch loop fetch_orders (lines 17 to 48), the normalization step
process_orders (lines 51 to 84), the export builder generate_excel
(lines 87 to 137), and the selection guard of the surrounding page code
(lines 182 to 194). Machine side effects are made explicit: the Streamlit
error display becomes a returned value, the HTTP server becomes a list of
page responses, and the workbook bytes become a structured workbook value.
-/

deriving instance DecidableEq for Except

/-- A line item of a raw order, restricted to the fields the program reads:
the required key name (line 56 and line 117) and the optional key quantity,
read on line 117 as item.get with default 1. -/
structure LineItem where
  name : String
  quantity : Option Int
deriving DecidableEq, Repr

/-- The billing object of a raw order; all three keys are read with dict
get and are therefore optional (lines 74 and 78). -/
structure Billing where
  first_name : Option String
  last_name : Option String
  phone : Option String
deriving DecidableEq, Repr

/-- The shipping object of a raw order; every key is read with dict get
and defaults to Python None when absent (lines 60 to 66). -/
structure Shipping where
  address_1 : Option String
  address_2 : Option String
  city : Option String
  state : Option String
  postcode : Option String
  country : Option String
deriving DecidableEq, Repr

/-- A raw WooCommerce order, restricted to the fields the program reads.
The shipping object itself is read with order.get on line 59 and is
therefore optional; id, date_created, status, total, billing and
line_items are accessed with plain indexing and are required. -/
structure RawOrder where
  id : Nat
  date_created : String
  status : String
  total : String
  billing : Billing
  shipping : Option Shipping
  line_items : List LineItem
deriving DecidableEq, Repr

/-- The Python exceptions the embedded pipeline can raise.
valueErrorStrptime models the ValueError raised by datetime.strptime on
line 73 and valueErrorFloat the ValueError raised by float on line 76;
each carries the unparseable input string, as the CPython message does.
Neither carries the id of the order being processed. -/
inductive PyError where
  | valueErrorStrptime (input : String)
  | valueErrorFloat (input : String)
deriving DecidableEq, Repr

/-- Split a character list at every occurrence of sep, keeping empty
pieces, as Python str.split with an explicit separator does. -/
def splitOnChar (sep : Char) : List Char → List (List Char)
  | [] => [[]]
  | c :: rest =>
    match splitOnChar sep rest with
    | [] => if c = sep then [[], []] else [[c]]
    | g :: gs => if c = sep then [] :: g :: gs else (c :: g) :: gs

/-- Numeric value of a digit sequence. -/
def digitsToNat (cs : List Char) : Nat :=
  cs.foldl (fun n c => n * 10 + (c.toNat - 48)) 0

/-- One numeric field of the strptime format string: nonempty, at most
maxLen characters, all digits, value inside the closed interval from lo
to hi. This mirrors the regular expressions the CPython strptime engine
compiles for the directives m d H M S, which accept one or two digits
and constrain the value range. -/
def parseTimeField (cs : List Char) (maxLen lo hi : Nat) : Option Nat :=
  if cs ≠ [] ∧ cs.length ≤ maxLen ∧ cs.all Char.isDigit then
    let n := digitsToNat cs
    if lo ≤ n ∧ n ≤ hi then some n else none
  else none

/-- The datetime value produced on line 73. -/
structure PyDateTime where
  year : Nat
  month : Nat
  day : Nat
  hour : Nat
  minute : Nat
  second : Nat
deriving DecidableEq, Repr

def isLeapYear (y : Nat) : Bool :=
  y % 4 = 0 ∧ (y % 100 ≠ 0 ∨ y % 400 = 0)

def daysInMonth (y m : Nat) : Nat :=
  if m = 2 then (if isLeapYear y then 29 else 28)
  else if m = 4 ∨ m = 6 ∨ m = 9 ∨ m = 11 then 30
  else 31

/-- Model of datetime.strptime(s, "%Y-%m-%dT%H:%M:%S") from line 73 of the
source: the year directive takes exactly four digits, the remaining
directives take one or two digits within their ranges, the whole string
must be consumed, and the datetime constructor additionally requires the
year to be at least 1 and the day to exist in the given month. Any
failure raises ValueError in Python; here it yields none. -/
def strptimeYmdHMS (s : String) : Option PyDateTime :=
  match splitOnChar 'T' s.data with
  | [datePart, timePart] =>
    (match splitOnChar '-' datePart, splitOnChar ':' timePart with
     | [ys, ms, ds], [hs, mins, ss] =>
       if ys.length = 4 ∧ ys.all Char.isDigit then
         let y := digitsToNat ys
         match parseTimeField ms 2 1 12, parseTimeField ds 2 1 31,
               parseTimeField hs 2 0 23, parseTimeField mins 2 0 59,
               parseTimeField ss 2 0 59 with
         | some m, some d, some hh, some mm, some sec =>
           if 1 ≤ y ∧ d ≤ daysInMonth y m then
             some ⟨y, m, d, hh, mm, sec⟩
           else none
         | _, _, _, _, _ => none
       else none
     | _, _ => none)
  | _ => none

/-- Left pad a numeral with zeros, as the strftime directives Y m d do. -/
def padZeros (width n : Nat) : String :=
  let s := toString n
  if s.length < width then String.mk (List.replicate (width - s.length) '0') ++ s
  else s

/-- Model of strftime("%Y-%m-%d") from line 73. -/
def strftimeYmd (dt : PyDateTime) : String :=
  padZeros 4 dt.year ++ "-" ++ padZeros 2 dt.month ++ "-" ++ padZeros 2 dt.day

/-- The number produced by float on line 76, kept as an exact decimal
mantissa times ten to the exponent. Binary floating point rounding is not
modeled; no claim depends on the numeric value of an order total. -/
structure DecimalValue where
  mantissa : Int
  exponent : Int
deriving DecidableEq, Repr

/-- Exponent suffix of a float literal: digits after e or E with an
optional sign. -/
def parseExpDigits (cs : List Char) : Option Int :=
  match cs with
  | '+' :: rest =>
    if rest ≠ [] ∧ rest.all Char.isDigit then some (digitsToNat rest) else none
  | '-' :: rest =>
    if rest ≠ [] ∧ rest.all Char.isDigit then some (-(digitsToNat rest : Int)) else none
  | rest =>
    if rest ≠ [] ∧ rest.all Char.isDigit then some (digitsToNat rest) else none

/-- Empty remainder means exponent zero; otherwise an e or E suffix must
account for the whole rest of the string. -/
def parseExpPart (cs : List Char) : Option Int :=
  match cs with
  | [] => some 0
  | 'e' :: rest => parseExpDigits rest
  | 'E' :: rest => parseExpDigits rest
  | _ => none

/-- Digits, an optional fractional part, an optional exponent; at least
one digit must appear before or after the point. -/
def parseUnsignedFloat (cs : List Char) (neg : Bool) : Option DecimalValue :=
  let intPart := cs.takeWhile Char.isDigit
  let rest1 := cs.dropWhile Char.isDigit
  let fracPart := match rest1 with
    | '.' :: r => r.takeWhile Char.isDigit
    | _ => []
  let rest2 := match rest1 with
    | '.' :: r => r.dropWhile Char.isDigit
    | _ => rest1
  if intPart = [] ∧ fracPart = [] then none
  else
    match parseExpPart rest2 with
    | none => none
    | some e =>
      let mag : Nat := digitsToNat (intPart ++ fracPart)
      some ⟨if neg then -(mag : Int) else (mag : Int), e - (fracPart.length : Int)⟩

/-- Model of the Python float constructor applied to a string on line 76:
surrounding spaces are stripped, then an optional sign, digits with an
optional decimal point and an optional exponent. The special words inf,
infinity and nan and underscore digit separators are outside the data
model of an order total and are not modeled. Failure raises ValueError in
Python; here it yields none. -/
def pyFloat (s : String) : Option DecimalValue :=
  let cs := ((s.data.dropWhile (fun c => c = ' ')).reverse.dropWhile (fun c => c = ' ')).reverse
  match cs with
  | '+' :: rest => parseUnsignedFloat rest false
  | '-' :: rest => parseUnsignedFloat rest true
  | rest => parseUnsignedFloat rest false

/-- One HTTP response of the order endpoint: the status code, the raw
response text used in the error message on line 38, and the parsed JSON
body, a list of raw orders. -/
structure PageResponse where
  status_code : Nat
  text : String
  orders : List RawOrder
deriving DecidableEq, Repr

/-- What fetch_orders does, made explicit: the list the function returns,
the message handed to st.error on line 38 when a page request fails (the
status code and the response text), and the page numbers requested, in
request order. -/
structure FetchResult where
  returned : List RawOrder
  errorShown : Option (Nat × String)
  pagesRequested : List Nat
deriving DecidableEq, Repr

/-- The while loop of fetch_orders, lines 22 to 46. The server argument
lists the responses for the pages still ahead of the loop; pages past
the end of the list come back with status 200 and an empty JSON array,
which is how the upstream source signals the end of pagination. On a non
200 status the function shows an error and returns the empty list (line
39); on an empty page it breaks and returns the accumulated orders. -/
def fetchLoop : List PageResponse → List RawOrder → Nat → List Nat → FetchResult
  | [], all_orders, page, reqs => ⟨all_orders, none, reqs ++ [page]⟩
  | r :: rest, all_orders, page, reqs =>
    if r.status_code ≠ 200 then ⟨[], some (r.status_code, r.text), reqs ++ [page]⟩
    else if r.orders.isEmpty then ⟨all_orders, none, reqs ++ [page]⟩
    else fetchLoop rest (all_orders ++ r.orders) (page + 1) (reqs ++ [page])

/-- fetch_orders, lines 17 to 48, starting from page 1 with an empty
accumulator. The date range only parametrizes the query string and does
not influence the control flow, so it is not part of the embedding. -/
def fetch_orders (server : List PageResponse) : FetchResult :=
  fetchLoop server [] 1 []

/-- One row of the data frame built by process_orders, with one field per
dictionary key appended on lines 69 to 82. -/
structure Row where
  sNo : Nat
  select : Bool
  orderId : Nat
  date : String
  name : String
  orderStatus : String
  orderValue : DecimalValue
  noOfItems : Nat
  mobileNumber : String
  shippingAddress : String
  itemsOrdered : String
  lineItems : List LineItem
deriving DecidableEq, Repr

/-- The sort key of line 54: sorted(orders, key=lambda x: x[id]). -/
def orderLe (a b : RawOrder) : Prop := a.id ≤ b.id

instance : DecidableRel orderLe := fun a b => Nat.decLe a.id b.id

/-- Python str.join of a list of strings with a separator. -/
def joinWith (sep : String) : List String → String
  | [] => ""
  | [x] => x
  | x :: xs => x ++ sep ++ joinWith sep xs

/-- Lines 59 to 67: the six shipping fields in their fixed order, with
absent keys and empty strings dropped, exactly what the Python filter
with predicate None keeps of the list of dict gets. -/
def shippingParts : Option Shipping → List String
  | none => []
  | some s =>
    (([s.address_1, s.address_2, s.city, s.state, s.postcode,
       s.country].filterMap id).filter (fun t => t ≠ ""))

/-- The loop body of process_orders, lines 55 to 82, for the order at the
0 based position idx of the sorted list. The dictionary literal evaluates
the strptime call of line 73 before the float call of line 76, so a bad
date wins over a bad total within one order; either exception aborts the
whole function. -/
def buildRow (idx : Nat) (o : RawOrder) : Except PyError Row :=
  let items_ordered := joinWith ", " (o.line_items.map (fun it => it.name))
  let shipping_address := joinWith ", " (shippingParts o.shipping)
  match strptimeYmdHMS o.date_created, pyFloat o.total with
  | none, _ => Except.error (PyError.valueErrorStrptime o.date_created)
  | some _, none => Except.error (PyError.valueErrorFloat o.total)
  | some dt, some total =>
    Except.ok
      { sNo := idx + 1
        select := false
        orderId := o.id
        date := strftimeYmd dt
        name := o.billing.first_name.getD "" ++ " " ++ o.billing.last_name.getD ""
        orderStatus := o.status
        orderValue := total
        noOfItems := o.line_items.length
        mobileNumber := o.billing.phone.getD ""
        shippingAddress := shipping_address
        itemsOrdered := items_ordered
        lineItems := o.line_items }

/-- The for loop of lines 54 to 82: rows are appended in order; the first
exception aborts the function with nothing returned. -/
def processRows : Nat → List RawOrder → Except PyError (List Row)
  | _, [] => Except.ok []
  | idx, o :: rest =>
    match buildRow idx o with
    | Except.error e => Except.error e
    | Except.ok row =>
      match processRows (idx + 1) rest with
      | Except.error e => Except.error e
      | Except.ok rows => Except.ok (row :: rows)

/-- process_orders, lines 51 to 84. Python sorted is a stable comparison
sort; insertion sort on the same key is an exact model of its result. -/
def process_orders (orders : List RawOrder) : Except PyError (List Row) :=
  processRows 0 (List.insertionSort orderLe orders)

/-- A cell of an exported sheet. -/
inductive Cell where
  | str (s : String)
  | nat (n : Nat)
  | dec (v : DecimalValue)
deriving DecidableEq, Repr

/-- A sheet data frame: ordered column names plus rows of cells. -/
structure SheetDF where
  cols : List String
  rows : List (List Cell)
deriving DecidableEq, Repr

/-- Line 93: the projection df[[seven columns]].copy() onto the Orders
sheet columns, in the order written in the source. -/
def ordersProjection (df : List Row) : SheetDF :=
  ⟨["Order ID", "Name", "Items Ordered", "Mobile Number", "Shipping Address",
    "Order Value", "Order Status"],
   df.map (fun r =>
     [Cell.nat r.orderId, Cell.str r.name, Cell.str r.itemsOrdered,
      Cell.str r.mobileNumber, Cell.str r.shippingAddress,
      Cell.dec r.orderValue, Cell.str r.orderStatus])⟩

/-- Lines 94 to 97: rename Order ID to Order No and Order Value to Order
Total on the frame the method is called on. In the source this is an in
place rename, applied to the copy made on line 93. -/
def renameForExport (s : SheetDF) : SheetDF :=
  ⟨s.cols.map (fun c =>
      if c = "Order ID" then "Order No"
      else if c = "Order Value" then "Order Total" else c),
   s.rows⟩

/-- Lines 114 to 117: flatten the kept line items of every selected row
into pairs of item name and quantity, with a missing quantity key read as
1 by item.get. -/
def itemsListOf (df : List Row) : List (String × Int) :=
  df.flatMap (fun r => r.lineItems.map (fun it => (it.name, it.quantity.getD 1)))

/-- Reduction of an integer to the signed 64 bit range, the silent
wraparound of numpy int64 addition: the unique representative of the
class of n modulo 2 to the 64 inside that range. -/
def int64wrap (n : Int) : Int :=
  (n + 2 ^ 63) % 2 ^ 64 - 2 ^ 63

/-- Whether a value fits the signed 64 bit range. -/
def fitsInt64 (n : Int) : Bool :=
  decide (-(2 ^ 63) ≤ n ∧ n < 2 ^ 63)

/-- Dtype inference of pd.DataFrame on the pair list (line 120): the
Quantity column comes out int64 exactly when every value fits signed 64
bits; otherwise it is an object column of Python ints. -/
def quantityIsInt64 (items : List (String × Int)) : Bool :=
  items.all (fun q => fitsInt64 q.2)

/-- One addition of the groupby sum in the dtype of the Quantity column:
numpy int64 addition wraps silently, object addition over Python ints is
exact. -/
def groupAdd (wrap : Bool) (a b : Int) : Int :=
  if wrap then int64wrap (a + b) else a + b

/-- Line 121: groupby on the item name with sum of the quantity column.
Pairs are folded into one entry per distinct name, accumulating each
group in the dtype of the column. -/
def addToSummary (wrap : Bool) : List (String × Int) → String × Int → List (String × Int)
  | [], p => [p]
  | q :: rest, p =>
    if q.1 = p.1 then (q.1, groupAdd wrap q.2 p.2) :: rest
    else q :: addToSummary wrap rest p

/-- Lexicographic code point order on strings, the order pandas
sort_values uses on a column of Python strings (line 122). -/
def charsLe : List Char → List Char → Bool
  | [], _ => true
  | _ :: _, [] => false
  | c :: cs, d :: ds =>
    if c.toNat < d.toNat then true
    else if d.toNat < c.toNat then false
    else charsLe cs ds

def summaryLe (a b : String × Int) : Prop := charsLe a.1.data b.1.data = true

instance : DecidableRel summaryLe := fun a b => by
  unfold summaryLe; infer_instance

/-- Lines 119 to 122: the Item Summary frame, grouped by item name with
the group sums carried out in the inferred dtype of the Quantity column
(int64 with wraparound when every quantity fits signed 64 bits, exact
Python ints otherwise), then sorted by item name ascending. -/
def summaryOf (items : List (String × Int)) : List (String × Int) :=
  List.insertionSort summaryLe (items.foldl (addToSummary (quantityIsInt64 items)) [])

/-- The content of the workbook generate_excel writes: the Orders sheet
with its renamed columns and the Item Summary sheet as name and total
quantity pairs. Header formatting, column widths and row heights carry no
data and are not modeled. -/
structure Workbook where
  ordersSheet : SheetDF
  itemSummary : List (String × Int)
deriving DecidableEq, Repr

/-- generate_excel, lines 87 to 137. The first component is the workbook
content returned as bytes; the second component is the data frame the
caller passed in, as it stands after the call. Line 93 copies the
projection and line 94 renames only that copy, so the embedding of the
statement sequence leaves the input frame untouched. -/
def generate_excel (df : List Row) : Workbook × List Row :=
  let sheet1_df := ordersProjection df
  let sheet1_renamed := renameForExport sheet1_df
  let items_list := itemsListOf df
  let summary_df := summaryOf items_list
  (⟨sheet1_renamed, summary_df⟩, df)

/-- Lines 182 to 194 of the page code: filter the edited table down to
the rows with the Select box ticked and call generate_excel only when at
least one row is selected; with nothing selected no workbook is built. -/
def uiExport (edited : List Row) : Option Workbook :=
  let selected_orders := edited.filter (fun r => r.select)
  if selected_orders.isEmpty then none
  else some (generate_excel selected_orders).1

/-- Demonstration order used by concrete witnesses. -/
def demoRawOrder : RawOrder :=
  ⟨1, "2024-01-01T09:30:00", "processing", "10.00", ⟨none, none, none⟩, none,
   [⟨"Widget", some 1⟩]⟩

/-- A page holding one hundred orders, the per page maximum of the query. -/
def fullPage : PageResponse := ⟨200, "", List.replicate 100 demoRawOrder⟩

/-- The empty page that ends pagination. -/
def emptyPage : PageResponse := ⟨200, "", []⟩

/-- Run of the fetch loop over full pages followed by an empty page: it
accumulates every page in order, requests one page number per response,
and stops at the empty page. -/
theorem fetchLoop_ok (pre : List PageResponse) (e : PageResponse)
    (rest : List PageResponse) (acc : List RawOrder) (page : Nat) (reqs : List Nat)
    (hpre : ∀ r ∈ pre, r.status_code = 200 ∧ r.orders ≠ [])
    (he : e.status_code = 200) (heo : e.orders = []) :
    fetchLoop (pre ++ e :: rest) acc page reqs
      = ⟨acc ++ (pre.map (fun r => r.orders)).flatten, none,
         reqs ++ List.range' page (pre.length + 1)⟩ := by
  induction pre generalizing acc page reqs with
  | nil =>
    simp [fetchLoop, he, List.isEmpty_iff.mpr heo, List.range'_succ]
  | cons r pre ih =>
    obtain ⟨h200, hne⟩ := hpre r (List.mem_cons_self ..)
    have hemp : r.orders.isEmpty = false := by
      simpa [List.isEmpty_iff] using hne
    rw [List.cons_append]
    rw [show fetchLoop (r :: (pre ++ e :: rest)) acc page reqs
        = fetchLoop (pre ++ e :: rest) (acc ++ r.orders) (page + 1) (reqs ++ [page]) by
      simp [fetchLoop, h200, hemp]]
    rw [ih (acc ++ r.orders) (page + 1) (reqs ++ [page])
        (fun x hx => hpre x (List.mem_cons_of_mem _ hx))]
    simp [List.range'_succ, List.append_assoc]

/-- Run of the fetch loop that hits a non 200 response after a run of
full pages: the accumulated orders are dropped, the error display
carries the status code and the body, and the loop stops there. -/
theorem fetchLoop_error (pre : List PageResponse) (b : PageResponse)
    (rest : List PageResponse) (acc : List RawOrder) (page : Nat) (reqs : List Nat)
    (hpre : ∀ r ∈ pre, r.status_code = 200 ∧ r.orders ≠ [])
    (hb : b.status_code ≠ 200) :
    fetchLoop (pre ++ b :: rest) acc page reqs
      = ⟨[], some (b.status_code, b.text), reqs ++ List.range' page (pre.length + 1)⟩ := by
  induction pre generalizing acc page reqs with
  | nil =>
    simp [fetchLoop, hb, List.range'_succ]
  | cons r pre ih =>
    obtain ⟨h200, hne⟩ := hpre r (List.mem_cons_self ..)
    have hemp : r.orders.isEmpty = false := by
      simpa [List.isEmpty_iff] using hne
    rw [List.cons_append]
    rw [show fetchLoop (r :: (pre ++ b :: rest)) acc page reqs
        = fetchLoop (pre ++ b :: rest) (acc ++ r.orders) (page + 1) (reqs ++ [page]) by
      simp [fetchLoop, h200, hemp]]
    rw [ih (acc ++ r.orders) (page + 1) (reqs ++ [page])
        (fun x hx => hpre x (List.mem_cons_of_mem _ hx))]
    simp [List.range'_succ, List.append_assoc]

/-- C2. Pagination completeness: when the responses for pages 1 to k are
all status 200 and nonempty and the response for page k + 1 is the first
empty one, fetch_orders requests exactly the pages 1, 2, up to k + 1 in
order, shows no error, and returns the concatenation of pages 1 to k in
page order. -/
theorem pagination_completeness (pre : List PageResponse) (e : PageResponse)
    (rest : List PageResponse)
    (hpre : ∀ r ∈ pre, r.status_code = 200 ∧ r.orders ≠ [])
    (he : e.status_code = 200) (heo : e.orders = []) :
    fetch_orders (pre ++ e :: rest)
      = ⟨(pre.map (fun r => r.orders)).flatten, none,
         List.range' 1 (pre.length + 1)⟩ := by
  simpa [fetch_orders] using fetchLoop_ok pre e rest [] 1 [] hpre he heo

/-- Witness for C2, scenario C of the spec: page 1 with one hundred
orders, page 2 empty; the fetch returns those hundred orders after
exactly two requests. -/
theorem pagination_completeness_witness :
    (∀ r ∈ [fullPage], r.status_code = 200 ∧ r.orders ≠ []) ∧
    emptyPage.status_code = 200 ∧ emptyPage.orders = [] ∧
    fetch_orders ([fullPage] ++ emptyPage :: [])
      = ⟨([fullPage].map (fun r => r.orders)).flatten, none,
         List.range' 1 ([fullPage].length + 1)⟩ :=
  ⟨by decide, by decide, by decide,
   pagination_completeness [fullPage] emptyPage [] (by decide) (by decide) (by decide)⟩

/-- C5 counterexample: page 1 succeeds with an order, page 2 comes back
with status 500. fetch_orders does not fail: it returns the empty list
as an ordinary value (dropping the order already fetched) and only
shows the status code and body on the page. The claim that a non 200
status makes fetch_orders fail with an error that propagates to the
caller, with no order list returned as a success value, is false. -/
theorem upstream_error_counterexample :
    fetch_orders [⟨200, "", [demoRawOrder]⟩, ⟨500, "Internal Server Error", []⟩]
      = ⟨[], some (500, "Internal Server Error"), [1, 2]⟩ := by decide

/-- C5 amended: when any page request returns a non 200 status after a
run of full pages, fetch_orders shows an error message carrying the
status code and the response body, abandons the fetch, and returns the
empty list as a normal return value, discarding the orders of earlier
pages; no exception reaches the caller. -/
theorem upstream_error_returns_empty (pre : List PageResponse) (b : PageResponse)
    (rest : List PageResponse)
    (hpre : ∀ r ∈ pre, r.status_code = 200 ∧ r.orders ≠ [])
    (hb : b.status_code ≠ 200) :
    fetch_orders (pre ++ b :: rest)
      = ⟨[], some (b.status_code, b.text), List.range' 1 (pre.length + 1)⟩ := by
  simpa [fetch_orders] using fetchLoop_error pre b rest [] 1 [] hpre hb

/-- Witness for the amended C5 at a concrete input. -/
theorem upstream_error_returns_empty_witness :
    (∀ r ∈ [fullPage], r.status_code = 200 ∧ r.orders ≠ []) ∧
    (500 : Nat) ≠ 200 ∧
    fetch_orders ([fullPage] ++ (⟨500, "Internal Server Error", []⟩ : PageResponse) :: [])
      = ⟨[], some (500, "Internal Server Error"), List.range' 1 ([fullPage].length + 1)⟩ :=
  ⟨by decide, by decide,
   upstream_error_returns_empty [fullPage] ⟨500, "Internal Server Error", []⟩ []
     (by decide) (by decide)⟩

/-- C6 counterexample: on the empty selection generate_excel does not
fail and does produce workbook content: an Orders sheet that still has
its seven renamed header columns and zero data rows, and an empty Item
Summary. The claim that the builder itself fails with an empty selection
error and produces no bytes is false. -/
theorem empty_selection_counterexample :
    (generate_excel ([] : List Row)).1
      = ⟨⟨["Order No", "Name", "Items Ordered", "Mobile Number", "Shipping Address",
           "Order Total", "Order Status"], []⟩, []⟩ := by decide

/-- C6 amended: generate_excel performs no empty selection check of its
own; on an empty selection it succeeds and yields a workbook whose two
sheets have zero data rows. Emptiness is handled only by the caller,
which does not call generate_excel when no row of the edited table is
selected. -/
theorem empty_selection_guard (edited : List Row)
    (h : edited.filter (fun r => r.select) = []) :
    uiExport edited = none
    ∧ (generate_excel ([] : List Row)).1.ordersSheet.rows = []
    ∧ (generate_excel ([] : List Row)).1.itemSummary = [] := by
  refine ⟨?_, rfl, rfl⟩
  simp [uiExport, h]

/-- Witness for the amended C6 at the empty edited table. -/
theorem empty_selection_guard_witness :
    (([] : List Row).filter (fun r => r.select) = []) ∧
    (uiExport [] = none
      ∧ (generate_excel ([] : List Row)).1.ordersSheet.rows = []
      ∧ (generate_excel ([] : List Row)).1.itemSummary = []) :=
  ⟨rfl, empty_selection_guard [] rfl⟩

/-- C9. No mutation on export: generate_excel returns the table it was
given unchanged, every data cell of the Orders sheet equals the plain
projection of the input, and the two renamed column titles appear only
in the workbook it builds. -/
theorem no_mutation_on_export (df : List Row) :
    (generate_excel df).2 = df
    ∧ (generate_excel df).1.ordersSheet.rows = (ordersProjection df).rows
    ∧ (generate_excel df).1.ordersSheet.cols
        = ["Order No", "Name", "Items Ordered", "Mobile Number", "Shipping Address",
           "Order Total", "Order Status"] :=
  ⟨rfl, rfl, by simp [generate_excel, renameForExport, ordersProjection]⟩

/-- The exact addition of an object typed Quantity column. -/
theorem groupAdd_false (a b : Int) : groupAdd false a b = a + b := rfl

/-- The wrapping addition of an int64 typed Quantity column. -/
theorem groupAdd_true (a b : Int) : groupAdd true a b = int64wrap (a + b) := rfl

/-- The wraparound only changes an integer by a multiple of 2 to the 64. -/
theorem int64wrap_emod (x : Int) : int64wrap x % 2 ^ 64 = x % 2 ^ 64 := by
  unfold int64wrap
  rw [Int.sub_emod, Int.emod_emod_of_dvd _ dvd_rfl, ← Int.sub_emod,
    add_sub_cancel_right]

/-- Congruent integers wrap to the same int64 value. -/
theorem int64wrap_congr {x y : Int} (h : x % 2 ^ 64 = y % 2 ^ 64) :
    int64wrap x = int64wrap y := by
  unfold int64wrap
  rw [Int.add_emod, h, ← Int.add_emod]

/-- Wrapping the left summand first does not change a wrapped sum. -/
theorem int64wrap_add_left (a b : Int) :
    int64wrap (int64wrap a + b) = int64wrap (a + b) :=
  int64wrap_congr (by rw [Int.add_emod, int64wrap_emod, ← Int.add_emod])

/-- A value already inside the signed 64 bit range is fixed by the
wraparound. -/
theorem int64wrap_of_fits {x : Int} (h : fitsInt64 x = true) : int64wrap x = x := by
  have hx : -(2 ^ 63) ≤ x ∧ x < 2 ^ 63 := by simpa [fitsInt64] using h
  have h64 : (2 : Int) ^ 64 = 2 ^ 63 + 2 ^ 63 := by norm_num
  unfold int64wrap
  rw [Int.emod_eq_of_lt (by linarith [hx.1]) (by linarith [hx.2])]
  ring

/-- One exact groupby fold step conserves the total of the quantity
column. -/
theorem addToSummary_sum (acc : List (String × Int)) (p : String × Int) :
    ((addToSummary false acc p).map (fun q => q.2)).sum
      = (acc.map (fun q => q.2)).sum + p.2 := by
  induction acc with
  | nil => simp [addToSummary]
  | cons q rest ih =>
    by_cases h : q.1 = p.1
    · simp only [addToSummary, if_pos h, groupAdd_false, List.map_cons, List.sum_cons]
      ring
    · simp only [addToSummary, if_neg h, List.map_cons, List.sum_cons, ih]
      ring

/-- The whole exact groupby fold conserves the total of the quantity
column. -/
theorem foldl_addToSummary_sum (items : List (String × Int)) :
    ∀ acc : List (String × Int),
    ((items.foldl (addToSummary false) acc).map (fun q => q.2)).sum
      = (acc.map (fun q => q.2)).sum + (items.map (fun q => q.2)).sum := by
  induction items with
  | nil => intro acc; simp
  | cons p items ih =>
    intro acc
    simp only [List.foldl_cons, ih (addToSummary false acc p), addToSummary_sum,
      List.map_cons, List.sum_cons]
    ring

/-- One int64 groupby fold step conserves the total modulo 2 to the 64. -/
theorem addToSummary_sum_wrap (acc : List (String × Int)) (p : String × Int) :
    ((addToSummary true acc p).map (fun q => q.2)).sum % 2 ^ 64
      = ((acc.map (fun q => q.2)).sum + p.2) % 2 ^ 64 := by
  induction acc with
  | nil => simp [addToSummary]
  | cons q rest ih =>
    by_cases h : q.1 = p.1
    · simp only [addToSummary, if_pos h, groupAdd_true, List.map_cons, List.sum_cons]
      rw [Int.add_emod, int64wrap_emod, ← Int.add_emod]
      congr 1
      ring
    · simp only [addToSummary, if_neg h, List.map_cons, List.sum_cons]
      rw [Int.add_emod q.2, ih, ← Int.add_emod]
      congr 1
      ring

/-- The whole int64 groupby fold conserves the total modulo 2 to the 64. -/
theorem foldl_addToSummary_sum_wrap (items : List (String × Int)) :
    ∀ acc : List (String × Int),
    ((items.foldl (addToSummary true) acc).map (fun q => q.2)).sum % 2 ^ 64
      = ((acc.map (fun q => q.2)).sum + (items.map (fun q => q.2)).sum) % 2 ^ 64 := by
  induction items with
  | nil => intro acc; simp
  | cons p items ih =>
    intro acc
    rw [List.foldl_cons, ih (addToSummary true acc p)]
    rw [Int.add_emod, addToSummary_sum_wrap, ← Int.add_emod]
    simp only [List.map_cons, List.sum_cons]
    congr 1
    ring

/-- One int64 fold step is the exact fold step with the merged group
value wrapped, provided the incoming value is in range. -/
theorem addToSummary_wrap_comm (l : List (String × Int)) (p : String × Int)
    (hp : fitsInt64 p.2 = true) :
    addToSummary true (l.map (fun q => (q.1, int64wrap q.2))) p
      = (addToSummary false l p).map (fun q => (q.1, int64wrap q.2)) := by
  induction l with
  | nil => simp [addToSummary, int64wrap_of_fits hp]
  | cons q rest ih =>
    by_cases h : q.1 = p.1
    · simp only [List.map_cons, addToSummary, if_pos h, groupAdd_true, groupAdd_false]
      rw [int64wrap_add_left]
    · simp only [List.map_cons, addToSummary, if_neg h, ih]

/-- With every value of an int64 column in range, the int64 fold is the
exact fold with every group value wrapped. -/
theorem foldl_addToSummary_wrap (items : List (String × Int))
    (h : ∀ p ∈ items, fitsInt64 p.2 = true) :
    ∀ l : List (String × Int),
    items.foldl (addToSummary true) (l.map (fun q => (q.1, int64wrap q.2)))
      = (items.foldl (addToSummary false) l).map (fun q => (q.1, int64wrap q.2)) := by
  induction items with
  | nil => intro l; rfl
  | cons p items ih =>
    intro l
    rw [List.foldl_cons, List.foldl_cons,
      addToSummary_wrap_comm l p (h p (List.mem_cons_self ..)),
      ih (fun x hx => h x (List.mem_cons_of_mem _ hx)) (addToSummary false l p)]

/-- The grouping fold only merges into an existing name or appends the
new name at the end. -/
theorem keys_addToSummary (w : Bool) (l : List (String × Int)) (p : String × Int) :
    (addToSummary w l p).map (fun q => q.1)
      = if p.1 ∈ l.map (fun q => q.1) then l.map (fun q => q.1)
        else l.map (fun q => q.1) ++ [p.1] := by
  induction l with
  | nil => simp [addToSummary]
  | cons q rest ih =>
    by_cases h : q.1 = p.1
    · simp only [addToSummary, if_pos h, List.map_cons]
      rw [if_pos (show p.1 ∈ q.1 :: rest.map (fun q => q.1) from by
        rw [← h]; exact List.mem_cons_self ..)]
    · have hqp : ¬ p.1 = q.1 := fun hc => h hc.symm
      by_cases hm : p.1 ∈ rest.map (fun q => q.1)
      · simp [addToSummary, if_neg h, ih, hm, List.mem_cons]
      · simp [addToSummary, if_neg h, ih, hm, List.mem_cons, hqp]

/-- The grouping fold keeps the name column free of duplicates. -/
theorem nodupKeys_addToSummary (w : Bool) (l : List (String × Int))
    (p : String × Int) (h : (l.map (fun q => q.1)).Nodup) :
    ((addToSummary w l p).map (fun q => q.1)).Nodup := by
  rw [keys_addToSummary]
  by_cases hm : p.1 ∈ l.map (fun q => q.1)
  · simpa [hm] using h
  · rw [if_neg hm, List.nodup_append]
    exact ⟨h, List.nodup_singleton _,
      fun a ha hb => hm (by rwa [List.mem_singleton.mp hb] at ha)⟩

theorem nodupKeys_foldl (w : Bool) (items : List (String × Int)) :
    ∀ l : List (String × Int), (l.map (fun q => q.1)).Nodup →
    ((items.foldl (addToSummary w) l).map (fun q => q.1)).Nodup := by
  induction items with
  | nil => intro l h; exact h
  | cons p items ih =>
    intro l h
    exact ih (addToSummary w l p) (nodupKeys_addToSummary w l p h)

/-- Every name in the fold result comes from the accumulator or from the
pair list. -/
theorem keys_foldl_mem (w : Bool) (items : List (String × Int)) :
    ∀ l : List (String × Int), ∀ q ∈ items.foldl (addToSummary w) l,
    q.1 ∈ l.map (fun q => q.1) ∨ q.1 ∈ items.map (fun q => q.1) := by
  induction items with
  | nil =>
    intro l q hq
    exact Or.inl (List.mem_map_of_mem _ hq)
  | cons p items ih =>
    intro l q hq
    rcases ih (addToSummary w l p) q hq with hmem | hmem
    · rw [keys_addToSummary] at hmem
      by_cases hm : p.1 ∈ l.map (fun q => q.1)
      · rw [if_pos hm] at hmem
        exact Or.inl hmem
      · rw [if_neg hm] at hmem
        rcases List.mem_append.mp hmem with h1 | h1
        · exact Or.inl h1
        · right
          rw [List.map_cons]
          exact List.mem_singleton.mp h1 ▸ List.mem_cons_self ..
    · right
      rw [List.map_cons]
      exact List.mem_cons_of_mem _ hmem

/-- A map that fixes every member is the identity. -/
theorem map_eq_self_of_mem {α : Type} (f : α → α) (l : List α)
    (h : ∀ x ∈ l, f x = x) : l.map f = l := by
  induction l with
  | nil => rfl
  | cons x xs ih =>
    rw [List.map_cons, h x (List.mem_cons_self ..),
      ih (fun y hy => h y (List.mem_cons_of_mem _ hy))]

/-- The flattened pair list of lines 114 to 117, summed over its quantity
column, equals the sum over rows of the per row quantity sums with the
missing quantity default of 1. -/
theorem itemsListOf_sum (df : List Row) :
    ((itemsListOf df).map (fun q => q.2)).sum
      = (df.map (fun r => (r.lineItems.map (fun it => it.quantity.getD 1)).sum)).sum := by
  induction df with
  | nil => rfl
  | cons r rest ih =>
    simp only [itemsListOf, List.flatMap_cons, List.map_append, List.sum_append,
      List.map_map] at ih ⊢
    rw [ih]
    rfl

/-- With every quantity present, the default of 1 never fires. -/
theorem quantity_getD_congr (l : List LineItem)
    (h : ∀ it ∈ l, it.quantity.isSome) :
    l.map (fun it => it.quantity.getD 1) = l.map (fun it => it.quantity.getD 0) := by
  induction l with
  | nil => rfl
  | cons it rest ih =>
    obtain ⟨v, hv⟩ := Option.isSome_iff_exists.mp (h it (List.mem_cons_self ..))
    simp [hv, ih (fun x hx => h x (List.mem_cons_of_mem _ hx))]

/-- With every quantity present, the defaulted per row sums with default
1 and with default 0 agree. -/
theorem sum_quantity_getD_congr (df : List Row)
    (h : ∀ r ∈ df, ∀ it ∈ r.lineItems, it.quantity.isSome) :
    (df.map (fun r => (r.lineItems.map (fun it => it.quantity.getD 1)).sum)).sum
      = (df.map (fun r => (r.lineItems.map (fun it => it.quantity.getD 0)).sum)).sum := by
  induction df with
  | nil => rfl
  | cons r rest ih =>
    simp only [List.map_cons, List.sum_cons]
    rw [quantity_getD_congr r.lineItems (h r (List.mem_cons_self ..)),
      ih (fun x hx => h x (List.mem_cons_of_mem _ hx))]

/-- Quantity total of the summary entries whose name is n. -/
def sumFor (n : String) (l : List (String × Int)) : Int :=
  ((l.filter (fun q => decide (q.1 = n))).map (fun q => q.2)).sum

theorem sumFor_cons (n : String) (p : String × Int) (l : List (String × Int)) :
    sumFor n (p :: l) = (if p.1 = n then p.2 else 0) + sumFor n l := by
  by_cases h : p.1 = n <;> simp [sumFor, List.filter_cons, h]

/-- One exact groupby fold step conserves the per name total. -/
theorem addToSummary_sumFor (n : String) (acc : List (String × Int))
    (p : String × Int) :
    sumFor n (addToSummary false acc p)
      = sumFor n acc + (if p.1 = n then p.2 else 0) := by
  induction acc with
  | nil => by_cases h : p.1 = n <;> simp [addToSummary, sumFor, List.filter_cons, h]
  | cons q rest ih =>
    by_cases h : q.1 = p.1
    · simp only [addToSummary, if_pos h, groupAdd_false, sumFor_cons]
      rw [h]
      by_cases hn : p.1 = n
      · simp only [if_pos hn]; ring
      · simp only [if_neg hn]; ring
    · simp only [addToSummary, if_neg h, sumFor_cons, ih]
      ring

/-- The whole exact groupby fold conserves the per name total. -/
theorem foldl_addToSummary_sumFor (n : String) (items : List (String × Int)) :
    ∀ acc : List (String × Int),
    sumFor n (items.foldl (addToSummary false) acc)
      = sumFor n acc + sumFor n items := by
  induction items with
  | nil => intro acc; simp [sumFor]
  | cons p items ih =>
    intro acc
    simp only [List.foldl_cons, ih (addToSummary false acc p), addToSummary_sumFor,
      sumFor_cons]
    ring

/-- A name that does not occur contributes a zero total. -/
theorem sumFor_eq_zero_of_not_mem (n : String) (l : List (String × Int))
    (h : n ∉ l.map (fun q => q.1)) : sumFor n l = 0 := by
  induction l with
  | nil => rfl
  | cons q rest ih =>
    have h1 : ¬ q.1 = n := fun hc => h (by rw [List.map_cons, hc]; exact List.mem_cons_self ..)
    have h2 : n ∉ rest.map (fun q => q.1) :=
      fun hc => h (by rw [List.map_cons]; exact List.mem_cons_of_mem _ hc)
    rw [sumFor_cons, if_neg h1, ih h2, add_zero]

/-- In a list with unique names, the per name total of a member is its
own value. -/
theorem sumFor_of_mem_nodup (l : List (String × Int))
    (hN : (l.map (fun q => q.1)).Nodup) (q : String × Int) (hq : q ∈ l) :
    sumFor q.1 l = q.2 := by
  induction l with
  | nil => cases hq
  | cons r rest ih =>
    rw [List.map_cons, List.nodup_cons] at hN
    rcases List.mem_cons.mp hq with rfl | hq2
    · rw [sumFor_cons, if_pos rfl, sumFor_eq_zero_of_not_mem _ _ hN.1, add_zero]
    · have hne : ¬ r.1 = q.1 :=
        fun hc => hN.1 (by rw [hc]; exact List.mem_map_of_mem _ hq2)
      rw [sumFor_cons, if_neg hne, ih hN.2 hq2, zero_add]

/-- The Item Summary total is congruent to the exact total of the pair
list modulo 2 to the 64 in both dtype regimes. -/
theorem summaryOf_sum_emod (items : List (String × Int)) :
    ((summaryOf items).map (fun q => q.2)).sum % 2 ^ 64
      = ((items.map (fun q => q.2)).sum) % 2 ^ 64 := by
  have hsort : ((summaryOf items).map (fun q => q.2)).sum
      = ((items.foldl (addToSummary (quantityIsInt64 items)) []).map
          (fun q => q.2)).sum :=
    ((List.perm_insertionSort summaryLe
        (items.foldl (addToSummary (quantityIsInt64 items)) [])).map
          (fun q : String × Int => q.2)).sum_eq
  rw [hsort]
  cases hdt : quantityIsInt64 items with
  | false =>
    have he := foldl_addToSummary_sum items []
    simp only [List.map_nil, List.sum_nil, zero_add] at he
    rw [he]
  | true =>
    simpa using foldl_addToSummary_sum_wrap items []

/-- When every exact per name total fits the signed 64 bit range, no
wraparound fires and the Item Summary total equals the exact total. -/
theorem summaryOf_sum_exact (items : List (String × Int))
    (hfit : ∀ n ∈ items.map (fun q => q.1), fitsInt64 (sumFor n items) = true) :
    ((summaryOf items).map (fun q => q.2)).sum = (items.map (fun q => q.2)).sum := by
  have hsort : ((summaryOf items).map (fun q => q.2)).sum
      = ((items.foldl (addToSummary (quantityIsInt64 items)) []).map
          (fun q => q.2)).sum :=
    ((List.perm_insertionSort summaryLe
        (items.foldl (addToSummary (quantityIsInt64 items)) [])).map
          (fun q : String × Int => q.2)).sum_eq
  rw [hsort]
  have hexact : ((items.foldl (addToSummary false) []).map (fun q => q.2)).sum
      = (items.map (fun q => q.2)).sum := by
    have he := foldl_addToSummary_sum items []
    simp only [List.map_nil, List.sum_nil, zero_add] at he
    exact he
  cases hdt : quantityIsInt64 items with
  | false => exact hexact
  | true =>
    have hfits : ∀ p ∈ items, fitsInt64 p.2 = true := by
      simpa [quantityIsInt64, List.all_eq_true] using hdt
    have hw := foldl_addToSummary_wrap items hfits []
    simp only [List.map_nil] at hw
    have hN : ((items.foldl (addToSummary false) []).map (fun q => q.1)).Nodup :=
      nodupKeys_foldl false items [] (by simp)
    have hid : (items.foldl (addToSummary false) []).map
        (fun q => (q.1, int64wrap q.2)) = items.foldl (addToSummary false) [] := by
      apply map_eq_self_of_mem
      intro q hq
      have hval : q.2 = sumFor q.1 items := by
        have h1 := sumFor_of_mem_nodup _ hN q hq
        have h2 : sumFor q.1 (items.foldl (addToSummary false) []) = sumFor q.1 items := by
          simpa [sumFor] using foldl_addToSummary_sumFor q.1 items []
        rw [← h1, h2]
      have hkey : q.1 ∈ items.map (fun q => q.1) := by
        rcases keys_foldl_mem false items [] q hq with hc | hc
        · simp at hc
        · exact hc
      have : int64wrap q.2 = q.2 := by
        rw [hval]
        exact int64wrap_of_fits (hfit q.1 hkey)
      rw [this]
    rw [hw, hid]
    exact hexact

/-- A selected row whose four X line items of quantity 2 to the 62 each
make the int64 group sum of line 121 wrap around to 0. -/
def overflowRowA : Row :=
  ⟨1, true, 9, "2024-01-01", " ", "processing", ⟨1000, -2⟩, 4, "", "",
   "X, X, X, X",
   [⟨"X", some 4611686018427387904⟩, ⟨"X", some 4611686018427387904⟩,
    ⟨"X", some 4611686018427387904⟩, ⟨"X", some 4611686018427387904⟩]⟩

/-- C1 counterexample: four line items named X of quantity 2 to the 62
each (every one carries a quantity and fits int64, so the Quantity
column is int64 typed) give an Item Summary total of 0, because the
int64 group sum wraps at 2 to the 64, while the exact total of the
selected line item quantities is 2 to the 64. The claimed exact
conservation with no units lost is false on the program. -/
theorem aggregation_overflow_counterexample :
    (((generate_excel [overflowRowA]).1.itemSummary).map (fun q => q.2)).sum = 0
    ∧ ([overflowRowA].map
        (fun r => (r.lineItems.map (fun it => it.quantity.getD 0)).sum)).sum
        = 18446744073709551616
    ∧ (0 : Int) ≠ 18446744073709551616 :=
  ⟨by decide, by decide, by decide⟩

/-- C1 amended for the int64 groupby of line 121. Aggregation
conservation: when every line item of the selection carries a quantity,
the Quantity total of the Item Summary sheet is congruent modulo 2 to
the 64 to the sum over the selected orders of the sums of their line
item quantities, and the two are exactly equal whenever every per name
exact total also fits the signed 64 bit range, in particular for all
order data that does not overflow int64. -/
theorem aggregation_conservation (df : List Row)
    (h : ∀ r ∈ df, ∀ it ∈ r.lineItems, it.quantity.isSome) :
    ((((generate_excel df).1.itemSummary).map (fun q => q.2)).sum % 2 ^ 64
        = ((df.map (fun r => (r.lineItems.map (fun it => it.quantity.getD 0)).sum)).sum)
            % 2 ^ 64)
    ∧ ((∀ n ∈ (itemsListOf df).map (fun q => q.1),
          fitsInt64 (sumFor n (itemsListOf df)) = true) →
        (((generate_excel df).1.itemSummary).map (fun q => q.2)).sum
          = (df.map (fun r => (r.lineItems.map (fun it => it.quantity.getD 0)).sum)).sum) := by
  have h0 : (generate_excel df).1.itemSummary = summaryOf (itemsListOf df) := rfl
  have hbase : ((itemsListOf df).map (fun q => q.2)).sum
      = (df.map (fun r => (r.lineItems.map (fun it => it.quantity.getD 0)).sum)).sum := by
    rw [itemsListOf_sum, sum_quantity_getD_congr df h]
  constructor
  · rw [h0, summaryOf_sum_emod, hbase]
  · intro hfit
    rw [h0, summaryOf_sum_exact (itemsListOf df) hfit, hbase]

/-- Selected rows used by the witnesses of the export claims. -/
def wRowA : Row :=
  ⟨1, true, 2, "2024-01-01", "A B", "processing", ⟨5000, -2⟩, 2, "", "",
   "Widget, Gadget", [⟨"Widget", some 1⟩, ⟨"Gadget", some 2⟩]⟩

def wRowB : Row :=
  ⟨2, true, 5, "2024-01-02", "C D", "completed", ⟨10000, -2⟩, 1, "", "",
   "Widget", [⟨"Widget", some 3⟩]⟩

/-- Witness for the amended C1 on a concrete two order selection. -/
theorem aggregation_conservation_witness :
    (∀ r ∈ [wRowA, wRowB], ∀ it ∈ r.lineItems, it.quantity.isSome) ∧
    (((((generate_excel [wRowA, wRowB]).1.itemSummary).map (fun q => q.2)).sum % 2 ^ 64
        = (([wRowA, wRowB].map
            (fun r => (r.lineItems.map (fun it => it.quantity.getD 0)).sum)).sum) % 2 ^ 64)
      ∧ ((∀ n ∈ (itemsListOf [wRowA, wRowB]).map (fun q => q.1),
            fitsInt64 (sumFor n (itemsListOf [wRowA, wRowB])) = true) →
          (((generate_excel [wRowA, wRowB]).1.itemSummary).map (fun q => q.2)).sum
            = ([wRowA, wRowB].map
                (fun r => (r.lineItems.map (fun it => it.quantity.getD 0)).sum)).sum)) :=
  ⟨by decide, aggregation_conservation [wRowA, wRowB] (by decide)⟩

instance : IsTotal RawOrder orderLe := ⟨fun a b => Nat.le_total a.id b.id⟩

instance : IsTrans RawOrder orderLe := ⟨fun _ _ _ h1 h2 => Nat.le_trans h1 h2⟩

/-- With both parses succeeding, the loop body returns exactly the row
dictionary of lines 69 to 82. -/
theorem buildRow_ok (i : Nat) (o : RawOrder) (dt : PyDateTime) (v : DecimalValue)
    (hdt : strptimeYmdHMS o.date_created = some dt)
    (hv : pyFloat o.total = some v) :
    buildRow i o = Except.ok
      { sNo := i + 1
        select := false
        orderId := o.id
        date := strftimeYmd dt
        name := o.billing.first_name.getD "" ++ " " ++ o.billing.last_name.getD ""
        orderStatus := o.status
        orderValue := v
        noOfItems := o.line_items.length
        mobileNumber := o.billing.phone.getD ""
        shippingAddress := joinWith ", " (shippingParts o.shipping)
        itemsOrdered := joinWith ", " (o.line_items.map (fun it => it.name))
        lineItems := o.line_items } := by
  simp [buildRow, hdt, hv]

/-- When every order of the list parses, the loop returns one row per
order, with consecutive ordinals from i + 1 on and the listed derived
fields. -/
theorem processRows_ok (l : List RawOrder) : ∀ i : Nat,
    (∀ o ∈ l, (strptimeYmdHMS o.date_created).isSome ∧ (pyFloat o.total).isSome) →
    ∃ rows, processRows i l = Except.ok rows
      ∧ rows.map (fun r => r.sNo) = List.range' (i + 1) l.length
      ∧ rows.map (fun r => r.orderId) = l.map (fun o => o.id)
      ∧ rows.map (fun r => r.name)
          = l.map (fun o => o.billing.first_name.getD "" ++ " " ++ o.billing.last_name.getD "")
      ∧ rows.map (fun r => r.itemsOrdered)
          = l.map (fun o => joinWith ", " (o.line_items.map (fun it => it.name))) := by
  induction l with
  | nil =>
    intro i _
    exact ⟨[], rfl, by simp, rfl, rfl, rfl⟩
  | cons o rest ih =>
    intro i h
    obtain ⟨h1, h2⟩ := h o (List.mem_cons_self ..)
    obtain ⟨dt, hdt⟩ := Option.isSome_iff_exists.mp h1
    obtain ⟨v, hv⟩ := Option.isSome_iff_exists.mp h2
    obtain ⟨rows, hok, hs, hid, hn, hio⟩ :=
      ih (i + 1) (fun x hx => h x (List.mem_cons_of_mem _ hx))
    refine ⟨{ sNo := i + 1
              select := false
              orderId := o.id
              date := strftimeYmd dt
              name := o.billing.first_name.getD "" ++ " " ++ o.billing.last_name.getD ""
              orderStatus := o.status
              orderValue := v
              noOfItems := o.line_items.length
              mobileNumber := o.billing.phone.getD ""
              shippingAddress := joinWith ", " (shippingParts o.shipping)
              itemsOrdered := joinWith ", " (o.line_items.map (fun it => it.name))
              lineItems := o.line_items } :: rows, ?_, ?_, ?_, ?_, ?_⟩
    · simp [processRows, buildRow_ok i o dt v hdt hv, hok]
    · simp [hs, List.range'_succ]
    · simp [hid]
    · simp [hn]
    · simp [hio]

/-- C3. Ordinal assignment: for distinct order ids and parseable dates
and totals, process_orders returns one row per order; the ordinals are
1 up to n in order, the rows are strictly ascending in order id, the
multiset of order ids is exactly that of the input, and the result does
not depend on the input order. -/
theorem ordinal_assignment (orders : List RawOrder)
    (hids : orders.Pairwise (fun a b => a.id ≠ b.id))
    (hparse : ∀ o ∈ orders,
      (strptimeYmdHMS o.date_created).isSome ∧ (pyFloat o.total).isSome) :
    ∃ rows, process_orders orders = Except.ok rows
      ∧ rows.length = orders.length
      ∧ rows.map (fun r => r.sNo) = List.range' 1 orders.length
      ∧ List.Pairwise (fun a b => a.orderId < b.orderId) rows
      ∧ (rows.map (fun r => r.orderId)).Perm (orders.map (fun o => o.id))
      ∧ ∀ orders2, orders2.Perm orders →
          process_orders orders2 = process_orders orders := by
  have hperm : (List.insertionSort orderLe orders).Perm orders :=
    List.perm_insertionSort orderLe orders
  obtain ⟨rows, hok, hs, hid, _, _⟩ :=
    processRows_ok (List.insertionSort orderLe orders) 0
      (fun o ho => hparse o (hperm.mem_iff.mp ho))
  have hlen0 : (List.insertionSort orderLe orders).length = orders.length :=
    hperm.length_eq
  have hsorted : List.Pairwise orderLe (List.insertionSort orderLe orders) :=
    List.sorted_insertionSort orderLe orders
  have hne : (List.insertionSort orderLe orders).Pairwise (fun a b => a.id ≠ b.id) :=
    (List.Perm.pairwise_iff (fun h => Ne.symm h) hperm).mpr hids
  have hlt : (List.insertionSort orderLe orders).Pairwise (fun a b => a.id < b.id) :=
    (hsorted.and hne).imp (fun hab => Nat.lt_of_le_of_ne hab.1 hab.2)
  refine ⟨rows, hok, ?_, ?_, ?_, ?_, ?_⟩
  · have hl := congrArg List.length hid
    simpa [hlen0] using hl
  · rw [hs, hlen0]
  · have h1 : List.Pairwise (fun a b : Nat => a < b) (rows.map (fun r => r.orderId)) := by
      rw [hid]
      exact List.pairwise_map.mpr hlt
    exact List.pairwise_map.mp h1
  · rw [hid]
    exact hperm.map _
  · intro orders2 hp2
    have hperm2 : (List.insertionSort orderLe orders2).Perm
        (List.insertionSort orderLe orders) :=
      ((List.perm_insertionSort orderLe orders2).trans hp2).trans hperm.symm
    have hne2 : (List.insertionSort orderLe orders2).Pairwise (fun a b => a.id ≠ b.id) :=
      (List.Perm.pairwise_iff (fun h => Ne.symm h)
        ((List.perm_insertionSort orderLe orders2).trans hp2)).mpr hids
    have hlt2 : (List.insertionSort orderLe orders2).Pairwise (fun a b => a.id < b.id) :=
      ((List.sorted_insertionSort orderLe orders2).and hne2).imp
        (fun hab => Nat.lt_of_le_of_ne hab.1 hab.2)
    haveI : IsAntisymm RawOrder (fun a b => a.id < b.id) :=
      ⟨fun a b ha hb => absurd (Nat.lt_trans ha hb) (Nat.lt_irrefl _)⟩
    have heq : List.insertionSort orderLe orders2 = List.insertionSort orderLe orders :=
      List.eq_of_perm_of_sorted hperm2 hlt2 hlt
    unfold process_orders
    rw [heq]

/-- Scenario A orders: id 5 dated 2024-01-02 with one line item of
quantity 3, and id 2 dated 2024-01-01 with two line items. -/
def orderScnA : RawOrder :=
  ⟨5, "2024-01-02T00:00:00", "completed", "100.00",
   ⟨some "Priya", some "N", some "999"⟩,
   some ⟨some "12 High St", none, some "Pune", some "MH", some "411001", some "IN"⟩,
   [⟨"Widget", some 3⟩]⟩

def orderScnB : RawOrder :=
  ⟨2, "2024-01-01T00:00:00", "processing", "50.00", ⟨none, none, none⟩, none,
   [⟨"Widget", some 1⟩, ⟨"Gadget", some 2⟩]⟩

/-- Witness for C3 on the scenario A pair, fed to process_orders in
descending id order. -/
theorem ordinal_assignment_witness :
    ([orderScnA, orderScnB].Pairwise (fun a b => a.id ≠ b.id)) ∧
    (∀ o ∈ [orderScnA, orderScnB],
      (strptimeYmdHMS o.date_created).isSome ∧ (pyFloat o.total).isSome) ∧
    (∃ rows, process_orders [orderScnA, orderScnB] = Except.ok rows
      ∧ rows.length = [orderScnA, orderScnB].length
      ∧ rows.map (fun r => r.sNo) = List.range' 1 [orderScnA, orderScnB].length
      ∧ List.Pairwise (fun a b => a.orderId < b.orderId) rows
      ∧ (rows.map (fun r => r.orderId)).Perm
          ([orderScnA, orderScnB].map (fun o => o.id))
      ∧ ∀ orders2, orders2.Perm [orderScnA, orderScnB] →
          process_orders orders2 = process_orders [orderScnA, orderScnB]) :=
  ⟨by decide, by decide,
   ordinal_assignment [orderScnA, orderScnB] (by decide) (by decide)⟩

/-- A bad date or a bad total makes the loop body raise. -/
theorem buildRow_error (i : Nat) (o : RawOrder)
    (h : strptimeYmdHMS o.date_created = none ∨ pyFloat o.total = none) :
    ∃ e, buildRow i o = Except.error e := by
  cases hd : strptimeYmdHMS o.date_created with
  | none => exact ⟨PyError.valueErrorStrptime o.date_created, by simp [buildRow, hd]⟩
  | some dt =>
    rcases h with h | h
    · rw [hd] at h
      exact Option.noConfusion h
    · exact ⟨PyError.valueErrorFloat o.total, by simp [buildRow, hd, h]⟩

/-- A bad order anywhere in the list aborts the whole loop with an
exception; no row list is produced. -/
theorem processRows_error (l : List RawOrder) : ∀ i : Nat,
    (∃ o ∈ l, strptimeYmdHMS o.date_created = none ∨ pyFloat o.total = none) →
    ∃ e, processRows i l = Except.error e := by
  induction l with
  | nil =>
    intro i h
    simp at h
  | cons o rest ih =>
    intro i h
    cases hb : buildRow i o with
    | error e => exact ⟨e, by simp [processRows, hb]⟩
    | ok row =>
      obtain ⟨x, hx, hbad⟩ := h
      rcases List.mem_cons.mp hx with rfl | hx2
      · obtain ⟨e, he⟩ := buildRow_error i x hbad
        rw [hb] at he
        exact Except.noConfusion he
      · obtain ⟨e, he⟩ := ih (i + 1) ⟨x, hx2, hbad⟩
        exact ⟨e, by simp [processRows, hb, he]⟩

/-- C4 amended: an order whose date or total does not parse makes
process_orders fail as a whole with a ValueError; no table, not even a
partial one, is returned. The error carries the unparseable value, not
the id of the offending order. -/
theorem malformed_order_failfast (orders : List RawOrder)
    (h : ∃ o ∈ orders,
      strptimeYmdHMS o.date_created = none ∨ pyFloat o.total = none) :
    ∃ e, process_orders orders = Except.error e := by
  obtain ⟨o, ho, hbad⟩ := h
  exact processRows_error (List.insertionSort orderLe orders) 0
    ⟨o, (List.perm_insertionSort orderLe orders).mem_iff.mpr ho, hbad⟩

/-- Orders with an unparseable date, differing only in their id. -/
def badOrder7 : RawOrder :=
  ⟨7, "not-a-date", "processing", "10.00", ⟨none, none, none⟩, none, []⟩

def badOrder8 : RawOrder :=
  ⟨8, "not-a-date", "processing", "10.00", ⟨none, none, none⟩, none, []⟩

/-- C4 counterexample: two single order batches that differ only in the
order id produce the very same error value, so the error raised on a bad
date cannot carry the id of the offending order. It is the strptime
ValueError carrying the unparseable string, as the embedding records. -/
theorem malformed_error_counterexample :
    process_orders [badOrder7] = Except.error (PyError.valueErrorStrptime "not-a-date")
    ∧ process_orders [badOrder8] = Except.error (PyError.valueErrorStrptime "not-a-date")
    ∧ badOrder7.id ≠ badOrder8.id :=
  ⟨by decide, by decide, by decide⟩

/-- Witness for the amended C4: scenario E, a batch holding an order
whose date_created is not a date. -/
theorem malformed_order_failfast_witness :
    (∃ o ∈ [badOrder7],
      strptimeYmdHMS o.date_created = none ∨ pyFloat o.total = none) ∧
    (∃ e, process_orders [badOrder7] = Except.error e) :=
  ⟨by decide, malformed_order_failfast [badOrder7] (by decide)⟩

/-- An order with neither billing name present. -/
def noNameOrder : RawOrder :=
  ⟨3, "2024-01-01T00:00:00", "processing", "10.00", ⟨none, none, none⟩, none, []⟩

/-- C7 counterexample: for an order whose billing carries neither a
first nor a last name, the normalized Name cell is a single space, not
the empty string, because line 74 always inserts the separating space
and never trims. The claim that the name is trimmed and empty when both
parts are absent is false. -/
theorem customer_name_counterexample :
    (process_orders [noNameOrder]).map (fun rows => rows.map (fun r => r.name))
      = Except.ok [" "]
    ∧ (" " : String) ≠ "" :=
  ⟨by decide, by decide⟩

/-- C7 amended: for every batch that normalizes, the Name cell of each
row is the billing first name (empty when absent), one space, then the
billing last name (empty when absent), with no trimming; when both names
are absent the cell is the single space. -/
theorem customer_name_derivation (orders : List RawOrder)
    (hparse : ∀ o ∈ orders,
      (strptimeYmdHMS o.date_created).isSome ∧ (pyFloat o.total).isSome) :
    (process_orders orders).map (fun rows => rows.map (fun r => r.name))
      = Except.ok ((List.insertionSort orderLe orders).map
          (fun o => o.billing.first_name.getD "" ++ " " ++ o.billing.last_name.getD "")) := by
  have hperm := List.perm_insertionSort orderLe orders
  obtain ⟨rows, hok, _, _, hn, _⟩ :=
    processRows_ok (List.insertionSort orderLe orders) 0
      (fun o ho => hparse o (hperm.mem_iff.mp ho))
  have h0 : process_orders orders = processRows 0 (List.insertionSort orderLe orders) := rfl
  rw [h0, hok]
  simp [Except.map, hn]

/-- Witness for the amended C7 on the order with no billing names. -/
theorem customer_name_derivation_witness :
    (∀ o ∈ [noNameOrder],
      (strptimeYmdHMS o.date_created).isSome ∧ (pyFloat o.total).isSome) ∧
    (process_orders [noNameOrder]).map (fun rows => rows.map (fun r => r.name))
      = Except.ok ((List.insertionSort orderLe [noNameOrder]).map
          (fun o => o.billing.first_name.getD "" ++ " " ++ o.billing.last_name.getD "")) :=
  ⟨by decide, customer_name_derivation [noNameOrder] (by decide)⟩

/-- An order with a single line item of quantity 3. -/
def widgetOrder : RawOrder :=
  ⟨4, "2024-01-01T00:00:00", "processing", "10.00", ⟨none, none, none⟩, none,
   [⟨"Widget", some 3⟩]⟩

/-- C8 counterexample: line 56 joins the item names only, so an order
with the single line item Widget of quantity 3 gets the Items Ordered
cell Widget, not Widget (3). The claim that the cell lists name and
quantity pairs is false. -/
theorem items_ordered_counterexample :
    (process_orders [widgetOrder]).map (fun rows => rows.map (fun r => r.itemsOrdered))
      = Except.ok ["Widget"]
    ∧ ("Widget" : String) ≠ "Widget (3)" :=
  ⟨by decide, by decide⟩

/-- C8 amended: for every batch that normalizes, the Items Ordered cell
of each row is the comma join of the line item names only, in source
order; quantities do not appear in the cell. -/
theorem items_ordered_derivation (orders : List RawOrder)
    (hparse : ∀ o ∈ orders,
      (strptimeYmdHMS o.date_created).isSome ∧ (pyFloat o.total).isSome) :
    (process_orders orders).map (fun rows => rows.map (fun r => r.itemsOrdered))
      = Except.ok ((List.insertionSort orderLe orders).map
          (fun o => joinWith ", " (o.line_items.map (fun it => it.name)))) := by
  have hperm := List.perm_insertionSort orderLe orders
  obtain ⟨rows, hok, _, _, _, hio⟩ :=
    processRows_ok (List.insertionSort orderLe orders) 0
      (fun o ho => hparse o (hperm.mem_iff.mp ho))
  have h0 : process_orders orders = processRows 0 (List.insertionSort orderLe orders) := rfl
  rw [h0, hok]
  simp [Except.map, hio]

/-- Witness for the amended C8 on the order with one Widget line item. -/
theorem items_ordered_derivation_witness :
    (∀ o ∈ [widgetOrder],
      (strptimeYmdHMS o.date_created).isSome ∧ (pyFloat o.total).isSome) ∧
    (process_orders [widgetOrder]).map (fun rows => rows.map (fun r => r.itemsOrdered))
      = Except.ok ((List.insertionSort orderLe [widgetOrder]).map
          (fun o => joinWith ", " (o.line_items.map (fun it => it.name)))) :=
  ⟨by decide, items_ordered_derivation [widgetOrder] (by decide)⟩
